import Mathlib

/-!
Verification development for the nonna repository.

The two pieces of logic with real decision content are embedded here:

* `Nonna.parse_transaction` models the response-processing half of
  `backend/app/ai_parser.py::parse_transaction`: the raw textual
  response of the generation service is stripped, markdown code fences
  are removed, the text is parsed as JSON (`json.loads` is modelled by
  the executable `Nonna.jsonParse`), and the resulting object is
  validated and repaired field by field exactly as the Python code does.
  Python exceptions are modelled as explicit failure constructors: the
  `json.JSONDecodeError` handler becomes `ParseOutcome.malformedResponse`
  and the blanket `except Exception` handler becomes
  `ParseOutcome.otherError`.

* `Nonna.get_analytics_summary` models
  `backend/app/crud.py::get_analytics_summary` over the list of
  transactions returned by the (out-of-scope) database query: totals by
  kind, grouping of expenses by category name in first-encounter order,
  percentage computation, rounding, and the stable descending sort.

Python floats are modelled by rationals (`ℚ`); `round(x, n)` is modelled
by round-half-to-even at `n` decimal digits, the rounding mode of
Python's `round`.
-/

namespace Nonna

/-- Model of a Python/JSON value as produced by `json.loads`. Numbers are
modelled by rationals. -/
inductive Json where
  | null
  | bool (b : Bool)
  | num (q : ℚ)
  | str (s : String)
  | arr (elems : List Json)
  | obj (fields : List (String × Json))

/-- Model of Python dict assignment `d[k] = v` (and of how `json.loads`
resolves duplicate object keys): if the key is present its value is
replaced in place, otherwise the binding is appended at the end, so
insertion order of first occurrence is preserved. -/
def dictInsert : List (String × Json) → String → Json → List (String × Json)
  | [], k, v => [(k, v)]
  | (k', v') :: rest, k, v =>
    if k' = k then (k, v) :: rest else (k', v') :: dictInsert rest k v

/-- Model of Python `d.get(k)`: the value bound to the first occurrence of
the key, or `none`. -/
def dictGet : List (String × Json) → String → Option Json
  | [], _ => none
  | (k', v') :: rest, k => if k' = k then some v' else dictGet rest k

/-- JSON whitespace characters accepted between tokens by `json.loads`. -/
def isJsonWs (c : Char) : Bool :=
  c == ' ' || c == '\t' || c == '\n' || c == '\r'

/-- Drop leading JSON whitespace. -/
def skipWs (cs : List Char) : List Char := cs.dropWhile isJsonWs

/-- Numeric value of a list of decimal digit characters. -/
def digitsVal (ds : List Char) : ℕ :=
  ds.foldl (fun a c => a * 10 + (c.toNat - 48)) 0

/-- Value of a hexadecimal digit character. -/
def hexVal (c : Char) : ℕ :=
  if c.isDigit then c.toNat - 48
  else if 'a' ≤ c && c ≤ 'f' then c.toNat - 87
  else if 'A' ≤ c && c ≤ 'F' then c.toNat - 55
  else 0

/-- Test for a hexadecimal digit character. -/
def isHex (c : Char) : Bool :=
  c.isDigit || ('a' ≤ c && c ≤ 'f') || ('A' ≤ c && c ≤ 'F')

/-- Body of a JSON string after the opening quote: returns the decoded
content and the remainder after the closing quote. Handles the escape
sequences of the JSON grammar; rejects unescaped control characters and
unterminated strings, as `json.loads` does. Fuel-indexed so that the
recursion is structural; a call with fuel exceeding the input length
never runs out. -/
def parseStringBody : ℕ → List Char → Option (List Char × List Char)
  | 0, _ => none
  | _ + 1, [] => none
  | fuel + 1, c :: rest =>
    if c = '"' then some ([], rest)
    else if c = '\\' then
      match rest with
      | [] => none
      | e :: rest2 =>
        let dec : Option (Char × List Char) :=
          if e = '"' then some ('"', rest2)
          else if e = '\\' then some ('\\', rest2)
          else if e = '/' then some ('/', rest2)
          else if e = 'b' then some ('\x08', rest2)
          else if e = 'f' then some ('\x0c', rest2)
          else if e = 'n' then some ('\n', rest2)
          else if e = 'r' then some ('\r', rest2)
          else if e = 't' then some ('\t', rest2)
          else if e = 'u' then
            match rest2 with
            | h1 :: h2 :: h3 :: h4 :: rest3 =>
              if isHex h1 && isHex h2 && isHex h3 && isHex h4 then
                some (Char.ofNat
                  (((hexVal h1 * 16 + hexVal h2) * 16 + hexVal h3) * 16 + hexVal h4), rest3)
              else none
            | _ => none
          else none
        match dec with
        | some (d, r) =>
          match parseStringBody fuel r with
          | some (content, rest') => some (d :: content, rest')
          | none => none
        | none => none
    else if c.toNat < 32 then none
    else
      match parseStringBody fuel rest with
      | some (content, rest') => some (c :: content, rest')
      | none => none

/-- JSON number literal, per the strict grammar of `json.loads`: optional
minus sign, an integer part without superfluous leading zeros, optional
fraction and exponent. Returns the rational value and the remainder.
Fractions and exponents are scaled exactly in `ℚ`. -/
def parseNumber (cs : List Char) : Option (ℚ × List Char) :=
  let (neg, cs1) := match cs with
    | '-' :: r => (true, r)
    | _ => (false, cs)
  match cs1 with
  | [] => none
  | c :: rest =>
    if ¬ c.isDigit then none
    else
      let (intDs, cs2) :=
        if c = '0' then ([c], rest)
        else (cs1.takeWhile Char.isDigit, cs1.dropWhile Char.isDigit)
      let step2 : Option (ℚ × List Char) :=
        match cs2 with
        | '.' :: r =>
          let fds := r.takeWhile Char.isDigit
          if fds.isEmpty then none
          else some ((digitsVal intDs : ℚ) + (digitsVal fds : ℚ) / (10 : ℚ) ^ fds.length,
                     r.dropWhile Char.isDigit)
        | _ => some ((digitsVal intDs : ℚ), cs2)
      match step2 with
      | none => none
      | some (m, cs3) =>
        match cs3 with
        | [] => some (if neg then -m else m, cs3)
        | e :: r =>
          if e = 'e' ∨ e = 'E' then
            let (esgn, r2) : ℤ × List Char := match r with
              | '+' :: rr => (1, rr)
              | '-' :: rr => (-1, rr)
              | _ => (1, r)
            let eds := r2.takeWhile Char.isDigit
            if eds.isEmpty then none
            else some ((if neg then -m else m) * (10 : ℚ) ^ (esgn * (digitsVal eds : ℤ)),
                       r2.dropWhile Char.isDigit)
          else some (if neg then -m else m, cs3)

/-- Request tag for the single fuel-indexed JSON parsing function: a
value, the element loop of an array, or the member loop of an object. -/
inductive PReq where
  | value
  | elems (acc : List Json)
  | members (acc : List (String × Json))

/-- Result tag matching `PReq`. -/
inductive PRes where
  | val (j : Json)
  | list (l : List Json)
  | fields (f : List (String × Json))

/-- Recursive core of the JSON parser, structural in its fuel argument.
Mode `.value` parses one JSON value after optional whitespace; mode
`.elems` parses `value (, value)* ]` inside an array; mode `.members`
parses `"key" : value (, "key" : value)* \x7d` inside an object, with
duplicate keys resolved last-wins as Python dicts do. -/
def parseStep : ℕ → PReq → List Char → Option (PRes × List Char)
  | 0, _, _ => none
  | fuel + 1, .value, cs =>
    match skipWs cs with
    | [] => none
    | '{' :: rest =>
      match skipWs rest with
      | '}' :: rest2 => some (.val (.obj []), rest2)
      | _ =>
        match parseStep fuel (.members []) rest with
        | some (.fields fs, rest2) => some (.val (.obj fs), rest2)
        | _ => none
    | '[' :: rest =>
      match skipWs rest with
      | ']' :: rest2 => some (.val (.arr []), rest2)
      | _ =>
        match parseStep fuel (.elems []) rest with
        | some (.list l, rest2) => some (.val (.arr l), rest2)
        | _ => none
    | 't' :: 'r' :: 'u' :: 'e' :: rest => some (.val (.bool true), rest)
    | 'f' :: 'a' :: 'l' :: 's' :: 'e' :: rest => some (.val (.bool false), rest)
    | 'n' :: 'u' :: 'l' :: 'l' :: rest => some (.val .null, rest)
    | '"' :: rest =>
      match parseStringBody (rest.length + 1) rest with
      | some (scs, rest2) => some (.val (.str (String.mk scs)), rest2)
      | none => none
    | c :: rest =>
      if c = '-' ∨ c.isDigit then
        match parseNumber (c :: rest) with
        | some (q, rest2) => some (.val (.num q), rest2)
        | none => none
      else none
  | fuel + 1, .elems acc, cs =>
    match parseStep fuel .value cs with
    | some (.val v, rest) =>
      match skipWs rest with
      | ',' :: rest2 => parseStep fuel (.elems (acc ++ [v])) rest2
      | ']' :: rest2 => some (.list (acc ++ [v]), rest2)
      | _ => none
    | _ => none
  | fuel + 1, .members acc, cs =>
    match skipWs cs with
    | '"' :: rest =>
      match parseStringBody (rest.length + 1) rest with
      | some (kcs, rest2) =>
        match skipWs rest2 with
        | ':' :: rest3 =>
          match parseStep fuel .value rest3 with
          | some (.val v, rest4) =>
            let acc2 := dictInsert acc (String.mk kcs) v
            match skipWs rest4 with
            | ',' :: rest5 => parseStep fuel (.members acc2) rest5
            | '}' :: rest5 => some (.fields acc2, rest5)
            | _ => none
          | _ => none
        | _ => none
      | none => none
    | _ => none

/-- Model of `json.loads` over a character list: parse exactly one JSON
value, allowing surrounding whitespace and nothing else. The fuel bound
`2 * length + 4` is generous: every two fuel units consume at least one
input character. -/
def jsonParse (cs : List Char) : Option Json :=
  match parseStep (2 * cs.length + 4) .value cs with
  | some (.val j, rest) => if (skipWs rest).isEmpty then some j else none
  | _ => none

/-- Whitespace characters removed by Python's `str.strip()`. -/
def isPySpace (c : Char) : Bool :=
  c == ' ' || c == '\t' || c == '\n' || c == '\r' || c == '\x0b' || c == '\x0c'

/-- Model of Python `str.strip()` on a character list. -/
def pyStripL (cs : List Char) : List Char :=
  ((cs.dropWhile isPySpace).reverse.dropWhile isPySpace).reverse

/-- Test matching Python `result_text.startswith("```")`. -/
def hasFence : List Char → Bool
  | '`' :: '`' :: '`' :: _ => true
  | _ => false

/-- Model of `re.sub(r'^```json?\n?', '', result_text)`. In the regular
expression the final `?` applies to the letter `n` alone, so the match
requires the literal letters `jso`: a bare triple-backtick fence is NOT
removed. The alternatives are tried longest first, matching the greedy
regex semantics. -/
def stripOpenFenceL : List Char → List Char
  | '`' :: '`' :: '`' :: 'j' :: 's' :: 'o' :: 'n' :: '\n' :: rest => rest
  | '`' :: '`' :: '`' :: 'j' :: 's' :: 'o' :: 'n' :: rest => rest
  | '`' :: '`' :: '`' :: 'j' :: 's' :: 'o' :: '\n' :: rest => rest
  | '`' :: '`' :: '`' :: 'j' :: 's' :: 'o' :: rest => rest
  | cs => cs

/-- Model of `re.sub(r'\n?```$', '', result_text)`: remove a final
triple backtick, preceded by an optional newline, at the very end. -/
def stripCloseFenceL (cs : List Char) : List Char :=
  match cs.reverse with
  | '`' :: '`' :: '`' :: '\n' :: rest => rest.reverse
  | '`' :: '`' :: '`' :: rest => rest.reverse
  | _ => cs

/-- Normalization applied by `parse_transaction` to the raw response text
before `json.loads`: `strip()`, then fence clean-up guarded by
`startswith("```")`. -/
def normalizeResponse (s : String) : List Char :=
  let t := pyStripL s.data
  if hasFence t then stripCloseFenceL (stripOpenFenceL t) else t

/-- The fixed category taxonomy (`CATEGORIES` in `ai_parser.py`). -/
def CATEGORIES : List String :=
  ["Food & Drink", "Transportation", "Entertainment", "Shopping",
   "Bills & Utilities", "Health", "Income", "Other"]

/-- Model of Python `float(s)` on a string: strip whitespace, optional
sign, then a decimal literal with optional fraction and exponent; at
least one mantissa digit is required. Returns `none` when Python would
raise `ValueError`. -/
def pyFloatOfStr (s : String) : Option ℚ :=
  let cs := pyStripL s.data
  let (neg, cs1) := match cs with
    | '-' :: r => (true, r)
    | '+' :: r => (false, r)
    | _ => (false, cs)
  let ids := cs1.takeWhile Char.isDigit
  let cs2 := cs1.dropWhile Char.isDigit
  let (fds, cs3) : List Char × List Char := match cs2 with
    | '.' :: r => (r.takeWhile Char.isDigit, r.dropWhile Char.isDigit)
    | _ => ([], cs2)
  if ids.isEmpty && fds.isEmpty then none
  else
    let m : ℚ :=
      if fds.isEmpty then (digitsVal ids : ℚ)
      else (digitsVal ids : ℚ) + (digitsVal fds : ℚ) / (10 : ℚ) ^ fds.length
    match cs3 with
    | [] => some (if neg then -m else m)
    | e :: r =>
      if e = 'e' ∨ e = 'E' then
        let (esgn, r2) : ℤ × List Char := match r with
          | '+' :: rr => (1, rr)
          | '-' :: rr => (-1, rr)
          | _ => (1, r)
        let eds := r2.takeWhile Char.isDigit
        if eds.isEmpty || ¬ (r2.dropWhile Char.isDigit).isEmpty then none
        else some ((if neg then -m else m) * (10 : ℚ) ^ (esgn * (digitsVal eds : ℤ)))
      else none

/-- Model of Python `float(v)` on a JSON value: numbers pass through,
booleans coerce to 0 and 1, strings go through the float literal
grammar; `None`, lists and dicts raise `TypeError`, modelled as `none`. -/
def pyFloat : Json → Option ℚ
  | .num q => some q
  | .bool b => some (if b then 1 else 0)
  | .str s => pyFloatOfStr s
  | _ => none

/-- Truth of Python `result.get("category") in CATEGORIES`: only a string
value equal to a taxonomy member passes. -/
def catValid (kvs : List (String × Json)) : Bool :=
  match dictGet kvs "category" with
  | some (.str c) => decide (c ∈ CATEGORIES)
  | _ => false

/-- Truth of Python `result.get("transaction_type") in ["expense", "income"]`. -/
def typeValid (kvs : List (String × Json)) : Bool :=
  match dictGet kvs "transaction_type" with
  | some (.str t) => decide (t = "expense" ∨ t = "income")
  | _ => false

/-- Model of `result.get("amount", 0)`. -/
def rawAmountVal (kvs : List (String × Json)) : Json :=
  (dictGet kvs "amount").getD (.num 0)

/-- The category validation statement of `parse_transaction`:
`if result.get("category") not in CATEGORIES: result["category"] = "Other"`. -/
def fixCat (kvs : List (String × Json)) : List (String × Json) :=
  if catValid kvs then kvs else dictInsert kvs "category" (.str "Other")

/-- The transaction type validation statement of `parse_transaction`:
`if result.get("transaction_type") not in [...]: result["transaction_type"] = "expense"`. -/
def fixType (kvs : List (String × Json)) : List (String × Json) :=
  if typeValid kvs then kvs else dictInsert kvs "transaction_type" (.str "expense")

/-- Outcome of `parse_transaction`: the success payload, or one of the
two failure shapes. `malformedResponse` is the `except json.JSONDecodeError`
branch (error text `"Failed to parse AI response: ..."`); `otherError` is
the blanket `except Exception` branch (error text `str(e)`). -/
inductive ParseOutcome where
  | success (data : Json)
  | malformedResponse
  | otherError

/-- Validation and repair applied to the parsed JSON object: category and
type are repaired in sequence, then the amount is coerced with
`abs(float(result.get("amount", 0)))`. A coercion failure is a raised
exception caught by the blanket handler, hence `otherError`. -/
def processObj (kvs : List (String × Json)) : ParseOutcome :=
  let kvs2 := fixType (fixCat kvs)
  match pyFloat (rawAmountVal kvs2) with
  | some q => .success (.obj (dictInsert kvs2 "amount" (.num |q|)))
  | none => .otherError

/-- Model of `parse_transaction` from the textual generation response on:
normalize the text, `json.loads` it, then validate and repair. A JSON
parse failure is the `json.JSONDecodeError` branch; a JSON value that is
not an object makes `result.get(...)` raise `AttributeError`, caught by
the blanket handler. -/
def parse_transaction (result_text : String) : ParseOutcome :=
  match jsonParse (normalizeResponse result_text) with
  | none => .malformedResponse
  | some (.obj kvs) => processObj kvs
  | some _ => .otherError

/-- Lookup of a field in a draft object. -/
def objGet (j : Json) (k : String) : Option Json :=
  match j with
  | .obj kvs => dictGet kvs k
  | _ => none

/-- Category value the repair policy assigns, written from the policy:
keep a taxonomy member, otherwise (absent, non-string, or unknown)
replace with `Other`. -/
def repairedCategory (kvs : List (String × Json)) : String :=
  match dictGet kvs "category" with
  | some (.str c) => if c ∈ CATEGORIES then c else "Other"
  | _ => "Other"

/-- Transaction type the repair policy assigns, written from the policy:
keep `expense` or `income`, otherwise replace with `expense`. -/
def repairedType (kvs : List (String × Json)) : String :=
  match dictGet kvs "transaction_type" with
  | some (.str t) => if t = "expense" ∨ t = "income" then t else "expense"
  | _ => "expense"

/-- A persisted transaction as the aggregator reads it: amount, kind
string, and the associated category's name and color (the only fields
`get_analytics_summary` touches). -/
structure Txn where
  amount : ℚ
  transaction_type : String
  categoryName : String
  categoryColor : String

/-- Output row of the analytics summary (schema `CategorySummary`). -/
structure CategorySummary where
  category_name : String
  category_color : String
  total : ℚ
  count : ℕ
  percentage : ℚ

/-- Output of the analytics summary (schema `AnalyticsSummary`). -/
structure AnalyticsSummary where
  total_income : ℚ
  total_expenses : ℚ
  net_balance : ℚ
  by_category : List CategorySummary

/-- Round a rational to the nearest integer, ties to even: the rounding
mode of Python's built-in `round`. -/
def roundHalfEven (q : ℚ) : ℤ :=
  if Int.fract q < 1 / 2 then ⌊q⌋
  else if 1 / 2 < Int.fract q then ⌊q⌋ + 1
  else if ⌊q⌋ % 2 = 0 then ⌊q⌋ else ⌊q⌋ + 1

/-- Model of Python `round(x, 2)`. -/
def round2 (q : ℚ) : ℚ := (roundHalfEven (q * 100) : ℚ) / 100

/-- Model of Python `round(x, 1)`. -/
def round1 (q : ℚ) : ℚ := (roundHalfEven (q * 10) : ℚ) / 10

/-- Model of `sum(t.amount for t in transactions if t.transaction_type == "income")`. -/
def totalIncome (txns : List Txn) : ℚ :=
  ((txns.filter fun t => decide (t.transaction_type = "income")).map Txn.amount).sum

/-- Model of `sum(t.amount for t in transactions if t.transaction_type == "expense")`. -/
def totalExpenses (txns : List Txn) : ℚ :=
  ((txns.filter fun t => decide (t.transaction_type = "expense")).map Txn.amount).sum

/-- One accumulated group of `category_totals`: category name, the color
captured when the group was created, the running expense total and count. -/
structure RawGroup where
  name : String
  color : String
  total : ℚ
  count : ℕ

/-- One loop iteration of the grouping pass for an expense transaction:
if a group with this category name exists, add to its total and count in
place; otherwise append a fresh group (so the list stays in
first-encounter order, like a Python dict). -/
def bump (t : Txn) : List RawGroup → List RawGroup
  | [] => [⟨t.categoryName, t.categoryColor, t.amount, 1⟩]
  | g :: gs =>
    if g.name = t.categoryName then
      ⟨g.name, g.color, g.total + t.amount, g.count + 1⟩ :: gs
    else g :: bump t gs

/-- The `category_totals` dict after the grouping loop: expenses only,
grouped by category name, in order of first encounter. -/
def rawGroups (txns : List Txn) : List RawGroup :=
  txns.foldl (fun gs t => if t.transaction_type = "expense" then bump t gs else gs) []

/-- Build one `CategorySummary` from a raw group, as the comprehension in
`get_analytics_summary` does: total rounded to 2 places, percentage of
total expenses rounded to 1 place, or 0 when there are no expenses. -/
def mkCategorySummary (tE : ℚ) (g : RawGroup) : CategorySummary :=
  ⟨g.name, g.color, round2 g.total, g.count,
   round1 (if 0 < tE then g.total / tE * 100 else 0)⟩

/-- The `by_category` list before sorting, in first-encounter order. -/
def unsortedByCategory (txns : List Txn) : List CategorySummary :=
  (rawGroups txns).map (mkCategorySummary (totalExpenses txns))

/-- Insertion step of a stable descending sort on `total`: the new
element goes before the first existing element whose total is less than
or equal to its own. Python's `list.sort(key=..., reverse=True)` is
stable, and this insertion sort realizes the same order. -/
def insertByTotalDesc (x : CategorySummary) : List CategorySummary → List CategorySummary
  | [] => [x]
  | y :: ys => if y.total ≤ x.total then x :: y :: ys else y :: insertByTotalDesc x ys

/-- Stable sort of the category summaries by total, descending: the model
of `by_category.sort(key=lambda x: x.total, reverse=True)`. -/
def sortByTotalDesc (l : List CategorySummary) : List CategorySummary :=
  l.foldr insertByTotalDesc []

/-- Model of `get_analytics_summary` from the queried transaction list
on: totals by kind, grouping of expenses, percentages, rounding, stable
descending sort, net balance. -/
def get_analytics_summary (txns : List Txn) : AnalyticsSummary :=
  let tI := totalIncome txns
  let tE := totalExpenses txns
  ⟨round2 tI, round2 tE, round2 (tI - tE),
   sortByTotalDesc (unsortedByCategory txns)⟩

/-- Amount field of a draft as a rational, defaulting to 0. -/
def draftAmountQ (d : Json) : ℚ :=
  match objGet d "amount" with
  | some (.num q) => q
  | _ => 0

/-- Amount value the repair policy stores, written from the policy: the
absolute value of the coerced amount, where an absent amount coerces
from the default 0; `none` when coercion fails. -/
def amountRepaired (kvs : List (String × Json)) : Option Json :=
  (pyFloat (rawAmountVal kvs)).map (fun q => Json.num |q|)

/-- Category summary built the way the specification words it: raw total
rounded to 2 places, and percentage `(group_total / total_expenses) * 100`
rounded to 1 place when `total_expenses > 0`, else 0. -/
def specPercentage (tE total : ℚ) : ℚ :=
  if 0 < tE then round1 (total / tE * 100) else 0

/-- Category summary row assembled from a raw group per the
specification's percentage formula. -/
def mkSpecSummary (tE : ℚ) (g : RawGroup) : CategorySummary :=
  ⟨g.name, g.color, round2 g.total, g.count, specPercentage tE g.total⟩

/-! Lemmas about the dict model. -/

/-- Looking up the inserted key finds the inserted value. -/
theorem dictGet_dictInsert_self (kvs : List (String × Json)) (k : String) (v : Json) :
    dictGet (dictInsert kvs k v) k = some v := by
  induction kvs with
  | nil => simp [dictInsert, dictGet]
  | cons p rest ih =>
    obtain ⟨k', v'⟩ := p
    by_cases h : k' = k
    · simp [dictInsert, dictGet, h]
    · simp [dictInsert, dictGet, h, ih]

/-- Inserting one key leaves lookups of other keys unchanged. -/
theorem dictGet_dictInsert_ne (kvs : List (String × Json)) (k : String) (v : Json)
    (k' : String) (h : k' ≠ k) :
    dictGet (dictInsert kvs k v) k' = dictGet kvs k' := by
  induction kvs with
  | nil =>
    simp only [dictInsert, dictGet]
    rw [if_neg (fun hh => h hh.symm)]
  | cons p rest ih =>
    obtain ⟨k'', v''⟩ := p
    by_cases hk : k'' = k
    · subst hk
      simp only [dictInsert, if_pos rfl, dictGet]
      rw [if_neg (fun hh => h hh.symm), if_neg (fun hh => h hh.symm)]
    · simp only [dictInsert, if_neg hk, dictGet]
      by_cases hk' : k'' = k'
      · rw [if_pos hk', if_pos hk']
      · rw [if_neg hk', if_neg hk', ih]

/-- The category fix leaves every other key unchanged. -/
theorem dictGet_fixCat_ne (kvs : List (String × Json)) (k : String)
    (h : k ≠ "category") :
    dictGet (fixCat kvs) k = dictGet kvs k := by
  unfold fixCat
  split
  · rfl
  · exact dictGet_dictInsert_ne kvs "category" (.str "Other") k h

/-- The transaction type fix leaves every other key unchanged. -/
theorem dictGet_fixType_ne (kvs : List (String × Json)) (k : String)
    (h : k ≠ "transaction_type") :
    dictGet (fixType kvs) k = dictGet kvs k := by
  unfold fixType
  split
  · rfl
  · exact dictGet_dictInsert_ne kvs "transaction_type" (.str "expense") k h

/-- After the category fix, the category field holds exactly the value
the repair policy prescribes. -/
theorem dictGet_fixCat_category (kvs : List (String × Json)) :
    dictGet (fixCat kvs) "category" = some (.str (repairedCategory kvs)) := by
  unfold fixCat catValid repairedCategory
  rcases h : dictGet kvs "category" with _ | (_ | b | q | c | l | fl) <;>
    try simp [dictGet_dictInsert_self]
  by_cases hc : c ∈ CATEGORIES <;>
    simp [hc, h, dictGet_dictInsert_self]

/-- After the type fix, the type field holds exactly the value the
repair policy prescribes. -/
theorem dictGet_fixType_type (kvs : List (String × Json)) :
    dictGet (fixType kvs) "transaction_type" = some (.str (repairedType kvs)) := by
  unfold fixType typeValid repairedType
  rcases h : dictGet kvs "transaction_type" with _ | (_ | b | q | t | l | fl) <;>
    try simp [dictGet_dictInsert_self]
  by_cases hc : t = "expense" ∨ t = "income" <;>
    simp [hc, h, dictGet_dictInsert_self]

/-- The repair policy only ever assigns taxonomy members. -/
theorem repairedCategory_mem (kvs : List (String × Json)) :
    repairedCategory kvs ∈ CATEGORIES := by
  unfold repairedCategory
  rcases h : dictGet kvs "category" with _ | (_ | b | q | c | l | fl) <;>
    try (show "Other" ∈ CATEGORIES; decide)
  show (if c ∈ CATEGORIES then c else "Other") ∈ CATEGORIES
  by_cases hc : c ∈ CATEGORIES
  · rw [if_pos hc]; exact hc
  · rw [if_neg hc]; decide

/-- The repair policy only ever assigns the two legal kinds. -/
theorem repairedType_cases (kvs : List (String × Json)) :
    repairedType kvs = "expense" ∨ repairedType kvs = "income" := by
  unfold repairedType
  rcases h : dictGet kvs "transaction_type" with _ | (_ | b | q | t | l | fl) <;>
    try (left; rfl)
  show (if t = "expense" ∨ t = "income" then t else "expense") = "expense" ∨
    (if t = "expense" ∨ t = "income" then t else "expense") = "income"
  by_cases hc : t = "expense" ∨ t = "income"
  · rw [if_pos hc]; exact hc
  · rw [if_neg hc]; left; rfl

/-- The category repair does not read the type field, so applying it
first does not change what the type repair sees. -/
theorem repairedType_fixCat (kvs : List (String × Json)) :
    repairedType (fixCat kvs) = repairedType kvs := by
  unfold repairedType
  rw [dictGet_fixCat_ne kvs "transaction_type" (by decide)]

/-- The amount default lookup is unaffected by the two repairs. -/
theorem rawAmountVal_fix (kvs : List (String × Json)) :
    rawAmountVal (fixType (fixCat kvs)) = rawAmountVal kvs := by
  unfold rawAmountVal
  rw [dictGet_fixType_ne _ _ (by decide), dictGet_fixCat_ne _ _ (by decide)]

/-- When the response parses to a JSON object, `parse_transaction` is the
validation-and-repair step on that object. -/
theorem parse_eq_processObj (s : String) (kvs : List (String × Json))
    (hk : jsonParse (normalizeResponse s) = some (.obj kvs)) :
    parse_transaction s = processObj kvs := by
  unfold parse_transaction
  rw [hk]

/-- Shape of a successful repair: the amount coerced, and the draft is
the repaired object with the absolute amount stored. -/
theorem processObj_success (kvs : List (String × Json)) (d : Json)
    (h : processObj kvs = .success d) :
    ∃ q, pyFloat (rawAmountVal kvs) = some q ∧
      d = .obj (dictInsert (fixType (fixCat kvs)) "amount" (.num |q|)) := by
  simp only [processObj] at h
  rw [rawAmountVal_fix] at h
  rcases hq : pyFloat (rawAmountVal kvs) with _ | q <;> rw [hq] at h
  · exact absurd h (by simp)
  · exact ⟨q, rfl, by injection h with h'; exact h'.symm⟩

/-! Claim theorems about the parser. -/

/-- C1: every draft returned in a success result carries a category that
is the repaired one — a taxonomy member, with non-members and absent
categories replaced by `Other` — and a transaction type that is the
repaired one — exactly `expense` or `income`, with anything else
replaced by `expense`. -/
theorem parse_transaction_category_type_validated (s : String) (d : Json)
    (kvs : List (String × Json))
    (hd : parse_transaction s = .success d)
    (hk : jsonParse (normalizeResponse s) = some (.obj kvs)) :
    objGet d "category" = some (.str (repairedCategory kvs)) ∧
    repairedCategory kvs ∈ CATEGORIES ∧
    objGet d "transaction_type" = some (.str (repairedType kvs)) ∧
    (repairedType kvs = "expense" ∨ repairedType kvs = "income") := by
  rw [parse_eq_processObj s kvs hk] at hd
  obtain ⟨q, hq, rfl⟩ := processObj_success kvs d hd
  refine ⟨?_, repairedCategory_mem kvs, ?_, repairedType_cases kvs⟩
  · show dictGet (dictInsert (fixType (fixCat kvs)) "amount" (.num |q|)) "category" = _
    rw [dictGet_dictInsert_ne _ _ _ _ (by decide),
        dictGet_fixType_ne _ _ (by decide), dictGet_fixCat_category]
  · show dictGet (dictInsert (fixType (fixCat kvs)) "amount" (.num |q|)) "transaction_type" = _
    rw [dictGet_dictInsert_ne _ _ _ _ (by decide), dictGet_fixType_type,
        repairedType_fixCat]

/-- Witness for C1: a response with an unknown category and an unknown
type is repaired to `Other` and `expense`. -/
theorem parse_transaction_category_type_validated_witness :
    objGet (Json.obj [("category", Json.str "Other"), ("transaction_type", Json.str "expense"),
        ("amount", Json.num 0)]) "category" =
      some (.str (repairedCategory
        [("category", Json.str "Nonsense"), ("transaction_type", Json.str "maybe")])) ∧
    repairedCategory [("category", Json.str "Nonsense"), ("transaction_type", Json.str "maybe")]
      ∈ CATEGORIES ∧
    objGet (Json.obj [("category", Json.str "Other"), ("transaction_type", Json.str "expense"),
        ("amount", Json.num 0)]) "transaction_type" =
      some (.str (repairedType
        [("category", Json.str "Nonsense"), ("transaction_type", Json.str "maybe")])) ∧
    (repairedType [("category", Json.str "Nonsense"), ("transaction_type", Json.str "maybe")]
        = "expense" ∨
      repairedType [("category", Json.str "Nonsense"), ("transaction_type", Json.str "maybe")]
        = "income") :=
  parse_transaction_category_type_validated
    "\x7b\"category\": \"Nonsense\", \"transaction_type\": \"maybe\"\x7d"
    (Json.obj [("category", Json.str "Other"), ("transaction_type", Json.str "expense"),
      ("amount", Json.num 0)])
    [("category", Json.str "Nonsense"), ("transaction_type", Json.str "maybe")]
    (by rfl) (by rfl)

/-- C8: the amount stored in a successful draft is the absolute value of
the coerced amount (with an absent amount coercing from the default 0),
hence never negative. -/
theorem parse_transaction_amount_abs (s : String) (d : Json)
    (kvs : List (String × Json))
    (hd : parse_transaction s = .success d)
    (hk : jsonParse (normalizeResponse s) = some (.obj kvs)) :
    objGet d "amount" = amountRepaired kvs ∧ 0 ≤ draftAmountQ d := by
  rw [parse_eq_processObj s kvs hk] at hd
  obtain ⟨q, hq, rfl⟩ := processObj_success kvs d hd
  have hget : objGet (Json.obj (dictInsert (fixType (fixCat kvs)) "amount" (.num |q|)))
      "amount" = some (.num |q|) := dictGet_dictInsert_self _ _ _
  constructor
  · rw [hget]
    unfold amountRepaired
    rw [hq]
    rfl
  · simp only [draftAmountQ, hget]
    exact abs_nonneg q

/-- Witness for C8: a response with amount `-5` yields a draft whose
amount is `5`, which is nonnegative. -/
theorem parse_transaction_amount_abs_witness :
    objGet (Json.obj [("amount", Json.num 5), ("category", Json.str "Other"),
        ("transaction_type", Json.str "expense")]) "amount" =
      amountRepaired [("amount", Json.num (-5))] ∧
    0 ≤ draftAmountQ (Json.obj [("amount", Json.num 5), ("category", Json.str "Other"),
        ("transaction_type", Json.str "expense")]) :=
  parse_transaction_amount_abs "\x7b\"amount\": -5\x7d"
    (Json.obj [("amount", Json.num 5), ("category", Json.str "Other"),
      ("transaction_type", Json.str "expense")])
    [("amount", Json.num (-5))]
    (by rfl) (by rfl)

/-- C10: every field other than `category`, `transaction_type` and
`amount` — `description` and any extra keys included — is carried into
the successful draft unchanged and unvalidated. -/
theorem parse_transaction_field_passthrough (s : String) (d : Json)
    (kvs : List (String × Json)) (k : String)
    (hd : parse_transaction s = .success d)
    (hk : jsonParse (normalizeResponse s) = some (.obj kvs))
    (h1 : k ≠ "category") (h2 : k ≠ "transaction_type") (h3 : k ≠ "amount") :
    objGet d k = dictGet kvs k := by
  rw [parse_eq_processObj s kvs hk] at hd
  obtain ⟨q, hq, rfl⟩ := processObj_success kvs d hd
  show dictGet _ k = _
  rw [dictGet_dictInsert_ne _ _ _ _ h3, dictGet_fixType_ne _ _ h2,
      dictGet_fixCat_ne _ _ h1]

/-- Witness for C10: a response without a `description` key still
succeeds, and its extra `note` key is carried through verbatim. -/
theorem parse_transaction_field_passthrough_witness :
    objGet (Json.obj [("amount", Json.num 3), ("category", Json.str "Health"),
        ("transaction_type", Json.str "income"),
        ("note", Json.arr [Json.num 1, Json.bool true])]) "note" =
      dictGet [("amount", Json.num 3), ("category", Json.str "Health"),
        ("transaction_type", Json.str "income"),
        ("note", Json.arr [Json.num 1, Json.bool true])] "note" :=
  parse_transaction_field_passthrough
    "\x7b\"amount\": 3, \"category\": \"Health\", \"transaction_type\": \"income\", \"note\": [1, true]\x7d"
    (Json.obj [("amount", Json.num 3), ("category", Json.str "Health"),
      ("transaction_type", Json.str "income"),
      ("note", Json.arr [Json.num 1, Json.bool true])])
    [("amount", Json.num 3), ("category", Json.str "Health"),
      ("transaction_type", Json.str "income"),
      ("note", Json.arr [Json.num 1, Json.bool true])]
    "note" (by rfl) (by rfl) (by decide) (by decide) (by decide)

/-- C2 counterexample: a response whose amount is present but not
coercible to a number makes `parse_transaction` return the blanket
failure result — not, as claimed, a success with amount 0. -/
theorem parse_transaction_uncoercible_amount_counterexample :
    parse_transaction
      "\x7b\"amount\": \"abc\", \"description\": \"x\", \"category\": \"Other\", \"transaction_type\": \"expense\"\x7d"
      = .otherError := by rfl

/-- C2 amended: a present but uncoercible amount makes the coercion
raise, and the blanket exception handler turns this into a typed failure
result; no unhandled exception escapes, and no zero-amount draft is
produced for this case. -/
theorem parse_transaction_uncoercible_amount_error (s : String)
    (kvs : List (String × Json))
    (hk : jsonParse (normalizeResponse s) = some (.obj kvs))
    (ha : pyFloat (rawAmountVal kvs) = none) :
    parse_transaction s = .otherError := by
  rw [parse_eq_processObj s kvs hk]
  simp only [processObj]
  rw [rawAmountVal_fix, ha]

/-- Witness for the amended C2: the string amount `"abc"` does not
coerce, and the call returns the blanket failure. -/
theorem parse_transaction_uncoercible_amount_error_witness :
    parse_transaction "\x7b\"amount\": \"abc\"\x7d" = .otherError :=
  parse_transaction_uncoercible_amount_error "\x7b\"amount\": \"abc\"\x7d"
    [("amount", Json.str "abc")] (by rfl) (by rfl)

/-- C3: the same JSON object text succeeds unwrapped and succeeds
identically when wrapped in a ```` ```json ````-tagged fence, but the
bare triple-backtick fence is NOT stripped — the opening regular
expression `^```json?\n?` demands the letters `jso` — so the bare-fenced
response fails as malformed instead of parsing identically. -/
theorem parse_transaction_bare_fence_not_stripped :
    parse_transaction
      "\x7b\"amount\": 2, \"description\": \"x\", \"category\": \"Other\", \"transaction_type\": \"expense\"\x7d"
      = .success (Json.obj [("amount", Json.num 2), ("description", Json.str "x"),
        ("category", Json.str "Other"), ("transaction_type", Json.str "expense")]) ∧
    parse_transaction
      "```json\n\x7b\"amount\": 2, \"description\": \"x\", \"category\": \"Other\", \"transaction_type\": \"expense\"\x7d\n```"
      = .success (Json.obj [("amount", Json.num 2), ("description", Json.str "x"),
        ("category", Json.str "Other"), ("transaction_type", Json.str "expense")]) ∧
    parse_transaction
      "```\n\x7b\"amount\": 2, \"description\": \"x\", \"category\": \"Other\", \"transaction_type\": \"expense\"\x7d\n```"
      = .malformedResponse :=
  ⟨by rfl, by rfl, by rfl⟩

/-- C4: an invocation returns the `MalformedResponseError`-shaped
failure exactly when the normalized response text is not parseable as
JSON; in every other case it returns a success or the blanket typed
failure, never an escaping exception and never a partial draft. -/
theorem parse_transaction_malformed_iff (s : String) :
    parse_transaction s = .malformedResponse ↔
      jsonParse (normalizeResponse s) = none := by
  unfold parse_transaction
  rcases h : jsonParse (normalizeResponse s) with _ | (_ | b | q | st | l | kvs) <;>
    try simp
  rcases hq : pyFloat (rawAmountVal (fixType (fixCat kvs))) with _ | q <;>
    simp [processObj, hq]

/-- Witness for C4: the non-JSON text `hello` is a malformed response. -/
theorem parse_transaction_malformed_iff_witness :
    parse_transaction "hello" = .malformedResponse ↔
      jsonParse (normalizeResponse "hello") = none :=
  parse_transaction_malformed_iff "hello"

/-! Lemmas about rounding. -/

/-- Half-even rounding moves a rational by at most one half. -/
theorem roundHalfEven_close (q : ℚ) : |(roundHalfEven q : ℚ) - q| ≤ 1 / 2 := by
  have h0 : 0 ≤ Int.fract q := Int.fract_nonneg q
  have h1 : Int.fract q < 1 := Int.fract_lt_one q
  have hfl : (⌊q⌋ : ℚ) = q - Int.fract q := (Int.self_sub_fract q).symm
  unfold roundHalfEven
  split_ifs with ha hb hc
  · rw [hfl, show q - Int.fract q - q = -Int.fract q by ring, abs_neg,
      abs_of_nonneg h0]
    linarith
  · push_cast
    rw [hfl, show q - Int.fract q + 1 - q = 1 - Int.fract q by ring,
      abs_of_nonneg (by linarith)]
    linarith
  · have heq : Int.fract q = 1 / 2 := le_antisymm (not_lt.mp hb) (not_lt.mp ha)
    rw [hfl, show q - Int.fract q - q = -Int.fract q by ring, abs_neg,
      abs_of_nonneg h0, heq]
  · have heq : Int.fract q = 1 / 2 := le_antisymm (not_lt.mp hb) (not_lt.mp ha)
    push_cast
    rw [hfl, show q - Int.fract q + 1 - q = 1 - Int.fract q by ring,
      abs_of_nonneg (by linarith), heq]
    norm_num

/-- Half-even rounding fixes integers. -/
theorem roundHalfEven_intCast (n : ℤ) : roundHalfEven (n : ℚ) = n := by
  unfold roundHalfEven
  rw [Int.fract_intCast, Int.floor_intCast, if_pos (by norm_num : (0 : ℚ) < 1 / 2)]

/-- Two-place rounding fixes integers. -/
theorem round2_intCast (n : ℤ) : round2 (n : ℚ) = (n : ℚ) := by
  unfold round2
  rw [show ((n : ℚ) * 100) = ((n * 100 : ℤ) : ℚ) by push_cast; ring,
    roundHalfEven_intCast]
  push_cast
  ring

/-- One-place rounding fixes integers. -/
theorem round1_intCast (n : ℤ) : round1 (n : ℚ) = (n : ℚ) := by
  unfold round1
  rw [show ((n : ℚ) * 10) = ((n * 10 : ℤ) : ℚ) by push_cast; ring,
    roundHalfEven_intCast]
  push_cast
  ring

/-- Rounding zero gives zero. -/
theorem round2_zero : round2 0 = 0 := by
  simpa using round2_intCast 0

/-- Rounding zero to one place gives zero. -/
theorem round1_zero : round1 0 = 0 := by
  simpa using round1_intCast 0

/-- One-place rounding moves a rational by at most one twentieth. -/
theorem round1_close (q : ℚ) : |round1 q - q| ≤ 1 / 20 := by
  have h := roundHalfEven_close (q * 10)
  unfold round1
  rw [show (roundHalfEven (q * 10) : ℚ) / 10 - q
      = ((roundHalfEven (q * 10) : ℚ) - q * 10) / 10 by ring,
    abs_div, show |(10 : ℚ)| = 10 by norm_num]
  linarith

/-- Summing one-place roundings moves the sum by at most a twentieth per
summand. -/
theorem sum_map_round1_close (ps : List ℚ) :
    |(ps.map round1).sum - ps.sum| ≤ (ps.length : ℚ) / 20 := by
  induction ps with
  | nil => simp
  | cons p ps ih =>
    simp only [List.map_cons, List.sum_cons, List.length_cons]
    have h1 := round1_close p
    calc |round1 p + (ps.map round1).sum - (p + ps.sum)|
        = |(round1 p - p) + ((ps.map round1).sum - ps.sum)| := by ring_nf
      _ ≤ |round1 p - p| + |(ps.map round1).sum - ps.sum| := abs_add _ _
      _ ≤ 1 / 20 + (ps.length : ℚ) / 20 := by linarith
      _ = ((ps.length + 1 : ℕ) : ℚ) / 20 := by push_cast; ring

/-! Lemmas about grouping. -/

/-- Unfolding the expense total over a cons cell. -/
theorem totalExpenses_cons (t : Txn) (ts : List Txn) :
    totalExpenses (t :: ts)
      = (if t.transaction_type = "expense" then t.amount else 0) + totalExpenses ts := by
  unfold totalExpenses
  by_cases h : t.transaction_type = "expense" <;> simp [h, List.filter_cons]

/-- Adding an expense to the groups adds its amount to the grand total. -/
theorem bump_total_sum (t : Txn) (gs : List RawGroup) :
    ((bump t gs).map RawGroup.total).sum = (gs.map RawGroup.total).sum + t.amount := by
  induction gs with
  | nil => simp [bump]
  | cons g gs ih =>
    by_cases h : g.name = t.categoryName <;> simp [bump, h, ih] <;> ring

/-- The grand total over all groups is the expense total: every expense
lands in exactly one group. -/
theorem rawGroups_total_sum (txns : List Txn) :
    ((rawGroups txns).map RawGroup.total).sum = totalExpenses txns := by
  suffices h : ∀ (ts : List Txn) (gs : List RawGroup),
      ((ts.foldl (fun gs t => if t.transaction_type = "expense" then bump t gs else gs)
        gs).map RawGroup.total).sum
        = (gs.map RawGroup.total).sum + totalExpenses ts by
    simpa [rawGroups, totalExpenses] using h txns []
  intro ts
  induction ts with
  | nil =>
    intro gs
    simp [totalExpenses]
  | cons t ts ih =>
    intro gs
    rw [List.foldl_cons, totalExpenses_cons]
    by_cases h : t.transaction_type = "expense"
    · rw [if_pos h, if_pos h, ih, bump_total_sum]
      ring
    · rw [if_neg h, if_neg h, ih]
      ring

/-! Lemmas about the stable descending sort. -/

/-- Inserting permutes to a cons. -/
theorem perm_insertByTotalDesc (x : CategorySummary) (l : List CategorySummary) :
    (insertByTotalDesc x l).Perm (x :: l) := by
  induction l with
  | nil => exact List.Perm.refl _
  | cons y ys ih =>
    unfold insertByTotalDesc
    split
    · exact List.Perm.refl _
    · exact (ih.cons y).trans (List.Perm.swap x y ys)

/-- Sorting permutes the input. -/
theorem perm_sortByTotalDesc (l : List CategorySummary) :
    (sortByTotalDesc l).Perm l := by
  induction l with
  | nil => exact List.Perm.refl _
  | cons x xs ih =>
    show (insertByTotalDesc x (sortByTotalDesc xs)).Perm (x :: xs)
    exact (perm_insertByTotalDesc x _).trans (ih.cons x)

/-- Membership after an insertion. -/
theorem mem_insertByTotalDesc {a x : CategorySummary} {l : List CategorySummary} :
    a ∈ insertByTotalDesc x l ↔ a = x ∨ a ∈ l := by
  rw [(perm_insertByTotalDesc x l).mem_iff, List.mem_cons]

/-- Inserting into a descending list keeps it descending. -/
theorem pairwise_insertByTotalDesc (x : CategorySummary) (l : List CategorySummary)
    (h : l.Pairwise (fun a b => b.total ≤ a.total)) :
    (insertByTotalDesc x l).Pairwise (fun a b => b.total ≤ a.total) := by
  induction l with
  | nil => simp [insertByTotalDesc]
  | cons y ys ih =>
    rw [List.pairwise_cons] at h
    obtain ⟨hy, hys⟩ := h
    unfold insertByTotalDesc
    split
    case isTrue hcond =>
      rw [List.pairwise_cons]
      refine ⟨?_, List.pairwise_cons.mpr ⟨hy, hys⟩⟩
      intro z hz
      rcases List.mem_cons.mp hz with rfl | hz'
      · exact hcond
      · exact le_trans (hy z hz') hcond
    case isFalse hcond =>
      rw [List.pairwise_cons]
      refine ⟨?_, ih hys⟩
      intro z hz
      rcases mem_insertByTotalDesc.mp hz with rfl | hz'
      · exact le_of_lt (lt_of_not_le hcond)
      · exact hy z hz'

/-- The sort output is descending in `total`. -/
theorem pairwise_sortByTotalDesc (l : List CategorySummary) :
    (sortByTotalDesc l).Pairwise (fun a b => b.total ≤ a.total) := by
  induction l with
  | nil => simp [sortByTotalDesc]
  | cons x xs ih =>
    show (insertByTotalDesc x (sortByTotalDesc xs)).Pairwise _
    exact pairwise_insertByTotalDesc x _ ih

/-- Restricting to one total value commutes with insertion: the elements
skipped before the insertion point all have strictly larger totals. -/
theorem filter_insertByTotalDesc (t : ℚ) (x : CategorySummary)
    (l : List CategorySummary) :
    (insertByTotalDesc x l).filter (fun e => decide (e.total = t)) =
      if x.total = t then x :: l.filter (fun e => decide (e.total = t))
      else l.filter (fun e => decide (e.total = t)) := by
  induction l with
  | nil =>
    by_cases hx : x.total = t <;> simp [insertByTotalDesc, List.filter, hx]
  | cons y ys ih =>
    unfold insertByTotalDesc
    split
    case isTrue hc =>
      by_cases hx : x.total = t <;> simp [List.filter_cons, hx]
    case isFalse hc =>
      by_cases hx : x.total = t
      · have hy : ¬ (y.total = t) := fun h => hc (le_of_eq (h.trans hx.symm))
        simp [List.filter_cons, hx, hy, ih]
      · simp [List.filter_cons, hx, ih]

/-- Restricting to one total value commutes with the whole sort: the sort
is stable, so equal totals keep their first-encounter order. -/
theorem filter_sortByTotalDesc (t : ℚ) (l : List CategorySummary) :
    (sortByTotalDesc l).filter (fun e => decide (e.total = t)) =
      l.filter (fun e => decide (e.total = t)) := by
  induction l with
  | nil => rfl
  | cons x xs ih =>
    show ((insertByTotalDesc x (sortByTotalDesc xs)).filter _) = _
    rw [filter_insertByTotalDesc]
    by_cases hx : x.total = t <;> simp [hx, ih, List.filter_cons]

/-- The implementation's row builder agrees with the specification's
percentage formula. -/
theorem mkCategorySummary_eq_spec (tE : ℚ) (g : RawGroup) :
    mkCategorySummary tE g = mkSpecSummary tE g := by
  unfold mkCategorySummary mkSpecSummary specPercentage
  by_cases h : 0 < tE <;> simp [h, round1_zero]

/-! Claim theorems about the aggregator. -/

/-- C7: aggregating no transactions succeeds with all-zero totals and an
empty category sequence. -/
theorem get_analytics_summary_empty :
    get_analytics_summary [] = ⟨0, 0, 0, []⟩ := by
  simp [get_analytics_summary, totalIncome, totalExpenses, unsortedByCategory,
    rawGroups, sortByTotalDesc, round2_zero]

/-- C5: the four-transaction example aggregates to income 100, expenses
50, net 50, with Food (total 40, 2 items, 80 percent) before Transport
(total 10, 1 item, 20 percent). -/
theorem get_analytics_summary_example :
    get_analytics_summary
      [⟨10, "expense", "Food", "#EF4444"⟩, ⟨30, "expense", "Food", "#EF4444"⟩,
       ⟨10, "expense", "Transport", "#F59E0B"⟩, ⟨100, "income", "Income", "#22C55E"⟩] =
      ⟨100, 50, 50,
       [⟨"Food", "#EF4444", 40, 2, 80⟩, ⟨"Transport", "#F59E0B", 10, 1, 20⟩]⟩ := by
  have h100 : round2 (100 : ℚ) = 100 := by simpa using round2_intCast 100
  have h50 : round2 (50 : ℚ) = 50 := by simpa using round2_intCast 50
  have h40 : round2 (40 : ℚ) = 40 := by simpa using round2_intCast 40
  have h10 : round2 (10 : ℚ) = 10 := by simpa using round2_intCast 10
  have h80 : round1 (80 : ℚ) = 80 := by simpa using round1_intCast 80
  have h20 : round1 (20 : ℚ) = 20 := by simpa using round1_intCast 20
  simp [get_analytics_summary, totalIncome, totalExpenses, unsortedByCategory,
    rawGroups, bump, mkCategorySummary, sortByTotalDesc, List.filter_cons]
  norm_num [insertByTotalDesc, h100, h50, h40, h10, h80, h20]

/-- C6: the by-category sequence is sorted by rounded total descending,
and within any fixed total value the rows appear exactly as in the
unsorted first-encounter-ordered sequence: the sort is stable. -/
theorem by_category_sorted_stable (txns : List Txn) (t : ℚ) :
    ((get_analytics_summary txns).by_category).Pairwise
      (fun a b => b.total ≤ a.total) ∧
    ((get_analytics_summary txns).by_category).filter (fun e => decide (e.total = t)) =
      (unsortedByCategory txns).filter (fun e => decide (e.total = t)) := by
  constructor
  · show (sortByTotalDesc (unsortedByCategory txns)).Pairwise _
    exact pairwise_sortByTotalDesc _
  · show (sortByTotalDesc (unsortedByCategory txns)).filter _ = _
    exact filter_sortByTotalDesc t _

/-- Witness for C6 at a concrete list and total value. -/
theorem by_category_sorted_stable_witness :
    ((get_analytics_summary [⟨5, "expense", "A", "#aaa"⟩]).by_category).Pairwise
      (fun a b => b.total ≤ a.total) ∧
    ((get_analytics_summary [⟨5, "expense", "A", "#aaa"⟩]).by_category).filter
        (fun e => decide (e.total = 5)) =
      (unsortedByCategory [⟨5, "expense", "A", "#aaa"⟩]).filter
        (fun e => decide (e.total = 5)) :=
  by_category_sorted_stable [⟨5, "expense", "A", "#aaa"⟩] 5

/-- C9: the by-category rows are exactly the raw groups mapped through
the specification's percentage formula (as a permutation induced by the
sort), and when expenses are positive the rounded percentages sum to 100
within a tenth per category; when there are no positive expenses every
percentage is 0. -/
theorem by_category_percentages (txns : List Txn) :
    ((get_analytics_summary txns).by_category).Perm
      ((rawGroups txns).map (mkSpecSummary (totalExpenses txns))) ∧
    (if 0 < totalExpenses txns then
        |(((get_analytics_summary txns).by_category).map CategorySummary.percentage).sum
            - 100|
          ≤ (((get_analytics_summary txns).by_category).length : ℚ) / 10
      else
        ((get_analytics_summary txns).by_category).map CategorySummary.percentage
          = List.replicate
              (((get_analytics_summary txns).by_category).map CategorySummary.percentage).length
              0) := by
  have hby : (get_analytics_summary txns).by_category
      = sortByTotalDesc (unsortedByCategory txns) := rfl
  have hunsort : unsortedByCategory txns
      = (rawGroups txns).map (mkSpecSummary (totalExpenses txns)) := by
    unfold unsortedByCategory
    rw [show mkCategorySummary (totalExpenses txns) = mkSpecSummary (totalExpenses txns)
      from funext (mkCategorySummary_eq_spec (totalExpenses txns))]
  have hperm : ((get_analytics_summary txns).by_category).Perm
      ((rawGroups txns).map (mkSpecSummary (totalExpenses txns))) := by
    rw [hby, ← hunsort]
    exact perm_sortByTotalDesc _
  refine ⟨hperm, ?_⟩
  by_cases hpos : 0 < totalExpenses txns
  · rw [if_pos hpos]
    have hsum_eq : (((get_analytics_summary txns).by_category).map
          CategorySummary.percentage).sum
        = (((rawGroups txns).map (mkSpecSummary (totalExpenses txns))).map
          CategorySummary.percentage).sum :=
      (hperm.map CategorySummary.percentage).sum_eq
    have hlen : ((get_analytics_summary txns).by_category).length
        = (rawGroups txns).length := by
      rw [hperm.length_eq, List.length_map]
    have hmap : ((rawGroups txns).map (mkSpecSummary (totalExpenses txns))).map
          CategorySummary.percentage
        = ((rawGroups txns).map
            (fun g => g.total / totalExpenses txns * 100)).map round1 := by
      rw [List.map_map, List.map_map]
      refine List.map_congr_left ?_
      intro g _
      simp [Function.comp, mkSpecSummary, specPercentage, hpos]
    have hps_sum : ((rawGroups txns).map
        (fun g => g.total / totalExpenses txns * 100)).sum = 100 := by
      have hfac : ∀ l : List RawGroup,
          (l.map (fun g => g.total / totalExpenses txns * 100)).sum
            = (l.map RawGroup.total).sum / totalExpenses txns * 100 := by
        intro l
        induction l with
        | nil => simp
        | cons g gs ih =>
          simp only [List.map_cons, List.sum_cons, ih]
          ring
      rw [hfac, rawGroups_total_sum, div_self (ne_of_gt hpos), one_mul]
    have hbound := sum_map_round1_close
      ((rawGroups txns).map (fun g => g.total / totalExpenses txns * 100))
    rw [hps_sum, List.length_map] at hbound
    rw [hsum_eq, hmap, hlen]
    have hc : (0 : ℚ) ≤ ((rawGroups txns).length : ℚ) := Nat.cast_nonneg _
    linarith
  · rw [if_neg hpos]
    rw [List.eq_replicate_length]
    intro b hb
    rw [List.mem_map] at hb
    obtain ⟨e, he, rfl⟩ := hb
    have he2 : e ∈ (rawGroups txns).map (mkSpecSummary (totalExpenses txns)) :=
      hperm.subset he
    rw [List.mem_map] at he2
    obtain ⟨g, hg, rfl⟩ := he2
    simp [mkSpecSummary, specPercentage, hpos]

/-- Witness for C9 at a concrete two-category list. -/
theorem by_category_percentages_witness :
    ((get_analytics_summary [⟨3, "expense", "A", "#aaa"⟩, ⟨1, "expense", "B", "#bbb"⟩]).by_category).Perm
      ((rawGroups [⟨3, "expense", "A", "#aaa"⟩, ⟨1, "expense", "B", "#bbb"⟩]).map
        (mkSpecSummary (totalExpenses [⟨3, "expense", "A", "#aaa"⟩, ⟨1, "expense", "B", "#bbb"⟩]))) ∧
    (if 0 < totalExpenses [⟨3, "expense", "A", "#aaa"⟩, ⟨1, "expense", "B", "#bbb"⟩] then
        |(((get_analytics_summary [⟨3, "expense", "A", "#aaa"⟩, ⟨1, "expense", "B", "#bbb"⟩]).by_category).map
            CategorySummary.percentage).sum - 100|
          ≤ (((get_analytics_summary [⟨3, "expense", "A", "#aaa"⟩, ⟨1, "expense", "B", "#bbb"⟩]).by_category).length : ℚ) / 10
      else
        ((get_analytics_summary [⟨3, "expense", "A", "#aaa"⟩, ⟨1, "expense", "B", "#bbb"⟩]).by_category).map
            CategorySummary.percentage
          = List.replicate
              (((get_analytics_summary [⟨3, "expense", "A", "#aaa"⟩, ⟨1, "expense", "B", "#bbb"⟩]).by_category).map
                CategorySummary.percentage).length 0) :=
  by_category_percentages [⟨3, "expense", "A", "#aaa"⟩, ⟨1, "expense", "B", "#bbb"⟩]

end Nonna
